import Mathlib

/-!
Shallow embedding of the runtime logic of the `python-styleguide` template
repository, together with theorems settling the frozen claims about it.

Python strings are modelled as `List Char` (`PyStr`). `str.strip()` (with no
argument, i.e. whitespace stripping) is modelled over the ASCII whitespace
characters, and `str.lower()` over the ASCII letters, the fragments the
repository actually exercises.
-/

/-- A Python string, modelled as its list of characters. -/
abbrev PyStr := List Char

/-- Model of the character class stripped by Python `str.strip()` with no
argument: space, tab, newline, vertical tab, form feed, carriage return. -/
def pyIsSpace (c : Char) : Bool :=
  c.toNat = 32 || c.toNat = 9 || c.toNat = 10 || c.toNat = 11 || c.toNat = 12 || c.toNat = 13

/-- Model of per-character `str.lower()`: maps an ASCII uppercase letter
(code 65–90) to its lowercase counterpart (code + 32), anything else to
itself. This mirrors the arithmetic definition of ASCII lower-casing. -/
def pyToLower (c : Char) : Char :=
  if 65 ≤ c.toNat ∧ c.toNat ≤ 90 then Char.ofNat (c.toNat + 32) else c

/-- Model of `str.lower()` applied to a whole string. -/
def pyLower (s : PyStr) : PyStr := s.map pyToLower

/-- Leading-whitespace removal, the left half of `str.strip()`. -/
def pyStripLeft (s : PyStr) : PyStr := s.dropWhile pyIsSpace

/-- Trailing-whitespace removal, the right half of `str.strip()`. -/
def pyStripRight (s : PyStr) : PyStr := (s.reverse.dropWhile pyIsSpace).reverse

/-- Model of `str.strip()` with no argument: removes leading and trailing
whitespace. -/
def pyStrip (s : PyStr) : PyStr := pyStripRight (pyStripLeft s)

/-- Python truthiness of a string: a string is truthy iff it is non-empty
(used by `name.strip() if name else self.name`). -/
def pyTruthy (s : PyStr) : Bool := !s.isEmpty

/-- `DEFAULT_NORMALIZE_STRIP` from `function_template.py`: the empty string,
meaning `strip_chars = DEFAULT_NORMALIZE_STRIP or None` is `None`, i.e.
whitespace-only stripping. -/
def DEFAULT_NORMALIZE_STRIP : PyStr := []

/-- The per-name transformation applied inside `normalize_names`:
`n.strip(strip_chars).lower()` with `strip_chars = None`. -/
def pyNormalizeName (s : PyStr) : PyStr := pyLower (pyStrip s)

/-- A Python value as seen by the `require_iterable_of_str` runtime guard:
either a string or some non-string value (tagged by a number, since only
its non-string-ness matters to the guard). -/
inductive PyVal where
  | str (s : PyStr)
  | nonStr (tag : Nat)
deriving DecidableEq

/-- Whether a `PyVal` is a string (`isinstance(n, str)`). -/
def PyVal.isStr : PyVal → Bool
  | .str _ => true
  | .nonStr _ => false

/-- The validation loop of the `wrapper` inside `require_iterable_of_str`:
walks the iterable, collects the elements into a list, and raises
`TypeError` (modelled as `none`) as soon as one element is not a `str`. -/
def require_iterable_of_str_validate : List PyVal → Option (List PyStr)
  | [] => some []
  | .str s :: rest => (require_iterable_of_str_validate rest).map (s :: ·)
  | .nonStr _ :: _ => none

/-- The body of `normalize_names` on a validated `list[str]`:
`[n.strip(strip_chars).lower() for n in names]`. -/
def normalize_names (xs : List PyStr) : List PyStr := xs.map pyNormalizeName

/-- The full decorated `normalize_names`, including the
`require_iterable_of_str` guard: `none` models a raised `TypeError`. -/
def normalize_names_checked (xs : List PyVal) : Option (List PyStr) :=
  (require_iterable_of_str_validate xs).map normalize_names

/-- The `seen`/`result` loop of `unique_normalized`, with the `seen` set
modelled as the list of already-appended names. -/
def unique_normalized_loop : List PyStr → List PyStr → List PyStr
  | [], _ => []
  | n :: rest, seen =>
    if n ∈ seen then unique_normalized_loop rest seen
    else n :: unique_normalized_loop rest (n :: seen)

/-- `unique_normalized` on a list of strings: iterates over
`normalize_names(names)` keeping first occurrences only. -/
def unique_normalized (xs : List PyStr) : List PyStr :=
  unique_normalized_loop (normalize_names xs) []

/-- `unique_normalized` including the `TypeError` guard it inherits from its
call to `normalize_names`. -/
def unique_normalized_checked (xs : List PyVal) : Option (List PyStr) :=
  (normalize_names_checked xs).map (fun l => unique_normalized_loop l [])

-- Character-level lemmas --

theorem char_toNat_ofNat {n : Nat} (h : n.isValidChar) : (Char.ofNat n).toNat = n := by
  unfold Char.ofNat
  rw [dif_pos h]
  rfl

theorem pyToLower_toNat_of_upper {c : Char} (h1 : 65 ≤ c.toNat) (h2 : c.toNat ≤ 90) :
    (pyToLower c).toNat = c.toNat + 32 := by
  unfold pyToLower
  rw [if_pos ⟨h1, h2⟩]
  exact char_toNat_ofNat (Or.inl (by omega))

theorem pyToLower_idem (c : Char) : pyToLower (pyToLower c) = pyToLower c := by
  by_cases h : 65 ≤ c.toNat ∧ c.toNat ≤ 90
  · have hn : (pyToLower c).toNat = c.toNat + 32 := pyToLower_toNat_of_upper h.1 h.2
    have hstep : pyToLower (pyToLower c) =
        if 65 ≤ (pyToLower c).toNat ∧ (pyToLower c).toNat ≤ 90 then
          Char.ofNat ((pyToLower c).toNat + 32)
        else pyToLower c := rfl
    rw [hstep, if_neg (by rw [hn]; omega)]
  · unfold pyToLower
    rw [if_neg h, if_neg h]

theorem pyIsSpace_pyToLower (c : Char) : pyIsSpace (pyToLower c) = pyIsSpace c := by
  by_cases h : 65 ≤ c.toNat ∧ c.toNat ≤ 90
  · have hn : (pyToLower c).toNat = c.toNat + 32 := pyToLower_toNat_of_upper h.1 h.2
    have hl : pyIsSpace (pyToLower c) = false := by
      simp only [pyIsSpace, hn, Bool.or_eq_false_iff, decide_eq_false_iff_not]
      omega
    have hr : pyIsSpace c = false := by
      simp only [pyIsSpace, Bool.or_eq_false_iff, decide_eq_false_iff_not]
      omega
    rw [hl, hr]
  · unfold pyToLower
    rw [if_neg h]

-- List-level stripping lemmas --

theorem dropWhile_self {α : Type} (p : α → Bool) (l : List α) :
    List.dropWhile p (List.dropWhile p l) = List.dropWhile p l := by
  induction l with
  | nil => rfl
  | cons x xs ih =>
    by_cases h : p x
    · simp [List.dropWhile_cons, h, ih]
    · simp [List.dropWhile_cons, h]

theorem pyStripLeft_idem (s : PyStr) : pyStripLeft (pyStripLeft s) = pyStripLeft s :=
  dropWhile_self pyIsSpace s

theorem pyStripRight_idem (s : PyStr) : pyStripRight (pyStripRight s) = pyStripRight s := by
  unfold pyStripRight
  rw [List.reverse_reverse, dropWhile_self]

theorem pyStripRight_cons_of_head {a : Char} {t : PyStr} (ha : pyIsSpace a = false) :
    ∃ r, pyStripRight (a :: t) = a :: r := by
  unfold pyStripRight
  rw [List.reverse_cons, List.dropWhile_append]
  by_cases h : (List.dropWhile pyIsSpace t.reverse).isEmpty
  · rw [if_pos h]
    exact ⟨[], by simp [List.dropWhile_cons, ha]⟩
  · rw [if_neg h]
    exact ⟨(List.dropWhile pyIsSpace t.reverse).reverse, by simp⟩

theorem pyStripLeft_pyStripRight_of_stripped {u : PyStr} (hu : pyStripLeft u = u) :
    pyStripLeft (pyStripRight u) = pyStripRight u := by
  cases u with
  | nil => rfl
  | cons a t =>
    have ha : pyIsSpace a = false := by
      by_contra hcon
      have ha2 : pyIsSpace a = true := by
        cases hha : pyIsSpace a
        · exact absurd hha hcon
        · rfl
      have : List.dropWhile pyIsSpace (a :: t) = List.dropWhile pyIsSpace t := by
        simp [List.dropWhile_cons, ha2]
      rw [pyStripLeft] at hu
      rw [this] at hu
      have hlen := congrArg List.length hu
      have hle : (List.dropWhile pyIsSpace t).length ≤ t.length :=
        (List.dropWhile_sublist pyIsSpace).length_le
      simp at hlen
      omega
    obtain ⟨r, hr⟩ := pyStripRight_cons_of_head (t := t) ha
    rw [hr]
    simp [pyStripLeft, List.dropWhile_cons, ha]

theorem pyStrip_idem (s : PyStr) : pyStrip (pyStrip s) = pyStrip s := by
  unfold pyStrip
  rw [pyStripLeft_pyStripRight_of_stripped (pyStripLeft_idem s)]
  have : pyStripRight (pyStripRight (pyStripLeft s)) = pyStripRight (pyStripLeft s) :=
    pyStripRight_idem (pyStripLeft s)
  rw [this]

theorem pyStripLeft_pyLower (s : PyStr) : pyStripLeft (pyLower s) = pyLower (pyStripLeft s) := by
  unfold pyStripLeft pyLower
  rw [List.dropWhile_map]
  have hfun : (pyIsSpace ∘ pyToLower) = pyIsSpace := funext pyIsSpace_pyToLower
  rw [hfun]

theorem pyStripRight_pyLower (s : PyStr) : pyStripRight (pyLower s) = pyLower (pyStripRight s) := by
  unfold pyStripRight pyLower
  rw [← List.map_reverse, List.dropWhile_map]
  have hfun : (pyIsSpace ∘ pyToLower) = pyIsSpace := funext pyIsSpace_pyToLower
  rw [hfun, List.map_reverse]

theorem pyStrip_pyLower (s : PyStr) : pyStrip (pyLower s) = pyLower (pyStrip s) := by
  unfold pyStrip
  rw [pyStripLeft_pyLower, pyStripRight_pyLower]

theorem pyLower_idem (s : PyStr) : pyLower (pyLower s) = pyLower s := by
  unfold pyLower
  rw [List.map_map]
  have hfun : (pyToLower ∘ pyToLower) = pyToLower := funext pyToLower_idem
  rw [hfun]

theorem pyNormalizeName_idem (s : PyStr) : pyNormalizeName (pyNormalizeName s) = pyNormalizeName s := by
  unfold pyNormalizeName
  rw [pyStrip_pyLower, pyLower_idem, pyStrip_idem]

-- Data model: User (package_template/class_template.py) --

/-- An exception kind raised by the modelled code. -/
inductive PyError where
  | typeError
  | runtimeError
deriving DecidableEq

/-- The `User` class of `src/package_template/class_template.py`: a stable
identifier, a display name, and an active flag (default `True`). -/
structure User where
  user_id : PyStr
  name : PyStr
  active : Bool := true
deriving DecidableEq

/-- `User.__eq__`: compares users by stable identifier only (the branch for
two `User` operands; non-`User` operands return `NotImplemented` and are
out of scope here). -/
def User.eq (u v : User) : Bool := u.user_id = v.user_id

/-- `User.__bool__`: a user is truthy when active. -/
def User.toBool (u : User) : Bool := u.active

/-- `User._ensure_active`: raises `RuntimeError` when the user is inactive,
otherwise does nothing. -/
def User.ensure_active (u : User) : Option PyError :=
  if u.active then none else some PyError.runtimeError

/-- `User.set_display_name`: first calls `_ensure_active` (raising before
any mutation when inactive), then runs
`self.name = name.strip() if name else self.name`. Returns the user state
after the call together with the raised exception, if any. -/
def User.set_display_name (u : User) (name : PyStr) : User × Option PyError :=
  match User.ensure_active u with
  | some e => (u, some e)
  | none => ({ u with name := if pyTruthy name then pyStrip name else u.name }, none)

-- Data model: the dataclass User (templates/class_template.py) --

/-- The `User` of the top-level `templates/class_template.py`, declared as
`@dataclass(slots=True)` with fields `user_id`, `name`, `active = True` and
no explicit `__eq__` or `__bool__`. -/
structure UserDataclass where
  user_id : PyStr
  name : PyStr
  active : Bool := true
deriving DecidableEq

/-- The `__eq__` generated by `@dataclass` for `UserDataclass`: compares the
full field tuple `(user_id, name, active)`. -/
def UserDataclass.eq (u v : UserDataclass) : Bool :=
  u.user_id = v.user_id && u.name = v.name && u.active = v.active

/-- `bool()` on a `UserDataclass`: the dataclass defines neither `__bool__`
nor `__len__`, so Python default object truthiness applies and every
instance is truthy. -/
def UserDataclass.toBool (_ : UserDataclass) : Bool := true

-- Data model: UserRegistry (package_template/module_template.py) --

/-- The `UserRegistry` dataclass: a list of managed users. -/
structure UserRegistry where
  users : List User
deriving DecidableEq

/-- `UserRegistry.get_all_names`: normalized names of all users,
`normalize_names(u.name for u in self.users)`. -/
def UserRegistry.get_all_names (r : UserRegistry) : List PyStr :=
  normalize_names (r.users.map User.name)

/-- `create_registry`: builds
`[User(user_id=name.lower(), name=name) for name in names]` — the id is the
lower-cased (but not stripped) name, the display name is stored unmodified,
and `active` keeps its default `True`. -/
def create_registry (names : List PyStr) : UserRegistry :=
  ⟨names.map (fun name => { user_id := pyLower name, name := name, active := true })⟩

-- Spec-side definition of first-occurrence de-duplication --

/-- De-duplication by first occurrence, written directly from the spec
sentence "de-duplication keeps first occurrence only": keep the head, then
recurse on the tail with all later copies of the head removed. -/
def dedup_by_first_occurrence : List PyStr → List PyStr
  | [] => []
  | x :: rest => x :: dedup_by_first_occurrence (rest.filter (fun y => decide (y ≠ x)))
termination_by l => l.length
decreasing_by
  simp only [List.length_cons]
  exact Nat.lt_succ_of_le (List.length_filter_le _ _)

-- CLI model --

/-- Modelled from the spec: the repository's 21 files under `src/` contain
no command-line entry point, but the spec describes "a conventional
command-line example entry point (`name` positional argument,
`-v`/`--verbose` counted flag)". Parsed result: the positional `name` and
the count of verbose flags. -/
structure CliArgs where
  name : PyStr
  verbose : Nat
deriving DecidableEq

/-- Modelled from the spec: whether a token is a spelling of the counted
verbose flag. -/
def cliIsVerboseFlag (t : PyStr) : Bool := t == "-v".data || t == "--verbose".data

/-- Modelled from the spec: the argument-scanning loop of the entry point.
Each verbose flag increments the count; the first non-flag token fills the
positional `name`; a second positional or a missing `name` is an error. -/
def parse_args_loop : List PyStr → Option PyStr → Nat → Option CliArgs
  | [], some n, v => some ⟨n, v⟩
  | [], none, _ => none
  | t :: rest, pos, v =>
    if cliIsVerboseFlag t then parse_args_loop rest pos (v + 1)
    else
      match pos with
      | none => parse_args_loop rest (some t) v
      | some _ => none

/-- Modelled from the spec: the full command-line parse of an argument
vector. -/
def parse_args (argv : List PyStr) : Option CliArgs := parse_args_loop argv none 0

-- Claims --

/-- C1: for every list of strings `xs`, `normalize_names xs` has the same
length as `xs` and its `i`-th element is `xs[i]` with leading and trailing
whitespace removed and then lower-cased, so input order is preserved. -/
theorem claim_C1_normalize_names_pointwise (xs : List PyStr) (i : Nat) (h : i < xs.length) :
    (normalize_names xs).length = xs.length ∧
    (normalize_names xs)[i]? = some (pyLower (pyStrip (xs.get ⟨i, h⟩))) := by
  constructor
  · simp [normalize_names]
  · rw [normalize_names, List.getElem?_map, List.getElem?_eq_getElem h]
    rfl

/-- Witness for C1 at the concrete input `[" Ab "]`. -/
theorem claim_C1_witness :
    0 < ([" Ab ".data] : List PyStr).length ∧
    ((normalize_names [" Ab ".data]).length = ([" Ab ".data] : List PyStr).length ∧
      (normalize_names [" Ab ".data])[0]? =
        some (pyLower (pyStrip (([" Ab ".data] : List PyStr).get ⟨0, by decide⟩)))) :=
  ⟨by decide, claim_C1_normalize_names_pointwise [" Ab ".data] 0 (by decide)⟩

/-- C2: normalization is idempotent on every list of strings. -/
theorem claim_C2_normalize_names_idempotent (xs : List PyStr) :
    normalize_names (normalize_names xs) = normalize_names xs := by
  unfold normalize_names
  rw [List.map_map]
  have hfun : (pyNormalizeName ∘ pyNormalizeName) = pyNormalizeName := funext pyNormalizeName_idem
  rw [hfun]

theorem require_iterable_of_str_validate_eq_none_iff (xs : List PyVal) :
    require_iterable_of_str_validate xs = none ↔ ∃ v ∈ xs, v.isStr = false := by
  induction xs with
  | nil => simp [require_iterable_of_str_validate]
  | cons x rest ih =>
    cases x with
    | str s =>
      have hmap : require_iterable_of_str_validate (PyVal.str s :: rest) = none ↔
          require_iterable_of_str_validate rest = none := by
        rw [require_iterable_of_str_validate]
        cases require_iterable_of_str_validate rest <;> simp
      rw [hmap, ih]
      simp [PyVal.isStr]
    | nonStr t =>
      simp [require_iterable_of_str_validate, PyVal.isStr]

/-- C4: the decorated `normalize_names` (and `unique_normalized`, which
inherits its guard) raises `TypeError` (modelled as `none`) if and only if
some element of the input is not a string; in particular an all-string
input raises nothing. -/
theorem claim_C4_type_guard (xs : List PyVal) :
    (normalize_names_checked xs = none ↔ ∃ v ∈ xs, v.isStr = false) ∧
    (unique_normalized_checked xs = none ↔ ∃ v ∈ xs, v.isStr = false) := by
  have h1 : normalize_names_checked xs = none ↔
      require_iterable_of_str_validate xs = none := by
    rw [normalize_names_checked]
    cases require_iterable_of_str_validate xs <;> simp
  have h2 : unique_normalized_checked xs = none ↔ normalize_names_checked xs = none := by
    rw [unique_normalized_checked]
    cases normalize_names_checked xs <;> simp
  refine ⟨?_, ?_⟩
  · rw [h1, require_iterable_of_str_validate_eq_none_iff]
  · rw [h2, h1, require_iterable_of_str_validate_eq_none_iff]

theorem dedup_by_first_occurrence_nil : dedup_by_first_occurrence [] = [] := by
  rw [dedup_by_first_occurrence]

theorem dedup_by_first_occurrence_cons (x : PyStr) (l : List PyStr) :
    dedup_by_first_occurrence (x :: l) =
      x :: dedup_by_first_occurrence (l.filter (fun y => decide (y ≠ x))) := by
  rw [dedup_by_first_occurrence]

theorem unique_normalized_loop_eq_dedup (l : List PyStr) :
    ∀ seen : List PyStr,
      unique_normalized_loop l seen =
        dedup_by_first_occurrence (l.filter (fun y => decide (y ∉ seen))) := by
  induction l with
  | nil =>
    intro seen
    rw [unique_normalized_loop, List.filter_nil, dedup_by_first_occurrence_nil]
  | cons x rest ih =>
    intro seen
    by_cases hx : x ∈ seen
    · have h1 : unique_normalized_loop (x :: rest) seen = unique_normalized_loop rest seen := by
        simp [unique_normalized_loop, hx]
      have h2 : List.filter (fun y => decide (y ∉ seen)) (x :: rest) =
          List.filter (fun y => decide (y ∉ seen)) rest := by
        simp [List.filter_cons, hx]
      rw [h1, h2, ih seen]
    · have h1 : unique_normalized_loop (x :: rest) seen =
          x :: unique_normalized_loop rest (x :: seen) := by
        simp [unique_normalized_loop, hx]
      have h2 : List.filter (fun y => decide (y ∉ seen)) (x :: rest) =
          x :: List.filter (fun y => decide (y ∉ seen)) rest := by
        simp [List.filter_cons, hx]
      have hpred : ∀ y : PyStr,
          decide (y ∉ x :: seen) = (decide (y ≠ x) && decide (y ∉ seen)) := by
        intro y
        by_cases h1 : y = x <;> by_cases h2 : y ∈ seen <;> simp [List.mem_cons, h1, h2]
      rw [h1, h2, ih (x :: seen), dedup_by_first_occurrence_cons, List.filter_filter]
      congr 1
      apply congrArg
      apply List.filter_congr
      intro y _
      rw [hpred y]

/-- C3: `unique_normalized xs` is `normalize_names xs` with duplicates
removed keeping first occurrences in first-seen order (stated against the
spec-side `dedup_by_first_occurrence`), and on the spec's example
`["Alice", "  Bob  ", "alice"]` normalization gives
`["alice", "bob", "alice"]` and de-duplication gives `["alice", "bob"]`. -/
theorem claim_C3_unique_normalized (xs : List PyStr) :
    unique_normalized xs = dedup_by_first_occurrence (normalize_names xs) ∧
    normalize_names ["Alice".data, "  Bob  ".data, "alice".data] =
      ["alice".data, "bob".data, "alice".data] ∧
    unique_normalized ["Alice".data, "  Bob  ".data, "alice".data] =
      ["alice".data, "bob".data] := by
  refine ⟨?_, by decide, by decide⟩
  rw [unique_normalized, unique_normalized_loop_eq_dedup (normalize_names xs) []]
  congr 1
  have hpred : (fun y : PyStr => decide (y ∉ ([] : List PyStr))) = fun _ => true := by
    funext y
    simp
  rw [hpred]
  exact List.filter_true _

/-- C5 counterexample: for the dataclass `User` of
`templates/class_template.py` (one of the claim's cited sources), the
generated `__eq__` compares all fields, so two users with equal `user_id`
but different `name` are not equal — the claimed equivalence fails there. -/
theorem claim_C5_counterexample :
    ¬ (UserDataclass.eq (UserDataclass.mk "u1".data "Ann".data true)
          (UserDataclass.mk "u1".data "Bea".data true) = true ↔
        (UserDataclass.mk "u1".data "Ann".data true).user_id =
          (UserDataclass.mk "u1".data "Bea".data true).user_id) := by
  decide

/-- C5 amended: for the `User` of `src/package_template/class_template.py`
(which defines `__eq__`), `u == v` holds iff `u.user_id = v.user_id`, so
`name` and `active` do not affect equality; for the dataclass `User` of
`templates/class_template.py` the generated `__eq__` compares the full
field tuple, so `name` and `active` do affect equality. -/
theorem claim_C5_user_equality (u v : User) (w x : UserDataclass) :
    (User.eq u v = true ↔ u.user_id = v.user_id) ∧
    (UserDataclass.eq w x = true ↔
      w.user_id = x.user_id ∧ w.name = x.name ∧ w.active = x.active) := by
  constructor
  · simp [User.eq]
  · simp [UserDataclass.eq, and_assoc]

/-- C6 counterexample: the dataclass `User` of `templates/class_template.py`
(one of the claim's cited sources) defines neither `__bool__` nor `__len__`,
so an inactive instance is still truthy — `bool(u)` differs from
`u.active` there. -/
theorem claim_C6_counterexample :
    ¬ (UserDataclass.toBool (UserDataclass.mk "u1".data "Ann".data false) =
        (UserDataclass.mk "u1".data "Ann".data false).active) := by
  decide

/-- C6 amended: for the `User` of `src/package_template/class_template.py`,
`bool(u)` equals `u.active`; for the dataclass `User` of
`templates/class_template.py`, which defines no `__bool__`, `bool(u)` is
always `True` regardless of `active`. -/
theorem claim_C6_user_truthiness (u : User) (w : UserDataclass) :
    User.toBool u = u.active ∧ UserDataclass.toBool w = true :=
  ⟨rfl, rfl⟩

/-- C7: calling `set_display_name` on an inactive user raises
`RuntimeError` and leaves `user_id`, `name` and `active` unchanged (the
raise in `_ensure_active` happens before any mutation). -/
theorem claim_C7_set_display_name_inactive (u : User) (n : PyStr) (h : u.active = false) :
    (User.set_display_name u n).2 = some PyError.runtimeError ∧
    (User.set_display_name u n).1.user_id = u.user_id ∧
    (User.set_display_name u n).1.name = u.name ∧
    (User.set_display_name u n).1.active = u.active := by
  unfold User.set_display_name User.ensure_active
  rw [h]
  simp [h]

/-- Witness for C7 at a concrete inactive user. -/
theorem claim_C7_witness :
    (User.mk "u1".data "Ann".data false).active = false ∧
    ((User.set_display_name (User.mk "u1".data "Ann".data false) " Bea ".data).2 =
        some PyError.runtimeError ∧
      (User.set_display_name (User.mk "u1".data "Ann".data false) " Bea ".data).1.user_id =
        (User.mk "u1".data "Ann".data false).user_id ∧
      (User.set_display_name (User.mk "u1".data "Ann".data false) " Bea ".data).1.name =
        (User.mk "u1".data "Ann".data false).name ∧
      (User.set_display_name (User.mk "u1".data "Ann".data false) " Bea ".data).1.active =
        (User.mk "u1".data "Ann".data false).active) :=
  ⟨rfl, claim_C7_set_display_name_inactive (User.mk "u1".data "Ann".data false) " Bea ".data rfl⟩

/-- C10: calling `set_display_name` on an active user raises nothing, sets
`name` to the whitespace-stripped argument when the argument is non-empty
and keeps the old `name` when it is empty, and leaves `user_id` and
`active` unchanged. -/
theorem claim_C10_set_display_name_active (u : User) (n : PyStr) (h : u.active = true) :
    (User.set_display_name u n).2 = none ∧
    (User.set_display_name u n).1.user_id = u.user_id ∧
    (User.set_display_name u n).1.active = u.active ∧
    (User.set_display_name u n).1.name = (if n = [] then u.name else pyStrip n) := by
  unfold User.set_display_name User.ensure_active
  rw [h]
  refine ⟨by simp, by simp, by simp, ?_⟩
  cases n with
  | nil => simp [pyTruthy]
  | cons c s => simp [pyTruthy]

/-- Witness for C10 at a concrete active user and a padded new name. -/
theorem claim_C10_witness :
    (User.mk "u1".data "Ann".data true).active = true ∧
    ((User.set_display_name (User.mk "u1".data "Ann".data true) " Bea ".data).2 = none ∧
      (User.set_display_name (User.mk "u1".data "Ann".data true) " Bea ".data).1.user_id =
        (User.mk "u1".data "Ann".data true).user_id ∧
      (User.set_display_name (User.mk "u1".data "Ann".data true) " Bea ".data).1.active =
        (User.mk "u1".data "Ann".data true).active ∧
      (User.set_display_name (User.mk "u1".data "Ann".data true) " Bea ".data).1.name =
        (if " Bea ".data = ([] : PyStr) then (User.mk "u1".data "Ann".data true).name
         else pyStrip " Bea ".data)) :=
  ⟨rfl, claim_C10_set_display_name_active (User.mk "u1".data "Ann".data true) " Bea ".data rfl⟩

theorem parse_args_loop_flags (f : PyStr) (hf : cliIsVerboseFlag f = true)
    (n : PyStr) (hn : cliIsVerboseFlag n = false) :
    ∀ (k v : Nat), parse_args_loop (List.replicate k f ++ [n]) none v = some ⟨n, v + k⟩ := by
  intro k
  induction k with
  | zero =>
    intro v
    simp only [List.replicate, List.nil_append]
    rw [parse_args_loop, hn]
    simp [parse_args_loop]
  | succ k ih =>
    intro v
    rw [List.replicate_succ, List.cons_append, parse_args_loop, hf]
    simp only [if_true]
    rw [ih (v + 1)]
    have harith : v + 1 + k = v + (k + 1) := by omega
    rw [harith]

/-- C8 (modelled from the spec: the command-line example entry point is not
among the files under `src/`): the entry point accepts a positional `name`
argument and a counted `-v`/`--verbose` flag — for any non-flag token `n`
and any count `k`, parsing `k` verbose flags (in either spelling) followed
by `n` yields the positional `name = n` and `verbose = k`. -/
theorem claim_C8_cli (n : PyStr) (k : Nat) (hn : cliIsVerboseFlag n = false) :
    parse_args (List.replicate k "-v".data ++ [n]) = some ⟨n, k⟩ ∧
    parse_args (List.replicate k "--verbose".data ++ [n]) = some ⟨n, k⟩ := by
  constructor
  · have h := parse_args_loop_flags "-v".data (by decide) n hn k 0
    rw [parse_args, h]
    have : 0 + k = k := by omega
    rw [this]
  · have h := parse_args_loop_flags "--verbose".data (by decide) n hn k 0
    rw [parse_args, h]
    have : 0 + k = k := by omega
    rw [this]

/-- Witness for C8 at the concrete argument vectors
`["-v", "-v", "alice"]` and `["--verbose", "--verbose", "alice"]`. -/
theorem claim_C8_witness :
    cliIsVerboseFlag "alice".data = false ∧
    (parse_args (List.replicate 2 "-v".data ++ ["alice".data]) = some ⟨"alice".data, 2⟩ ∧
      parse_args (List.replicate 2 "--verbose".data ++ ["alice".data]) =
        some ⟨"alice".data, 2⟩) :=
  ⟨by decide, claim_C8_cli "alice".data 2 (by decide)⟩

/-- C9: listing the names of `create_registry(names)` equals normalizing
`names` directly; moreover the registry stores each original name
unmodified and sets each `user_id` to the lower-cased (but not
whitespace-stripped) name. -/
theorem claim_C9_registry (names : List PyStr) (i : Nat) (h : i < names.length) :
    (create_registry names).get_all_names = normalize_names names ∧
    ((create_registry names).users.map User.name)[i]? = some (names.get ⟨i, h⟩) ∧
    ((create_registry names).users.map User.user_id)[i]? =
      some (pyLower (names.get ⟨i, h⟩)) := by
  have hname : (User.name ∘ fun name =>
      ({ user_id := pyLower name, name := name, active := true } : User)) = fun n => n := rfl
  have hid : (User.user_id ∘ fun name =>
      ({ user_id := pyLower name, name := name, active := true } : User)) = pyLower := rfl
  refine ⟨?_, ?_, ?_⟩
  · rw [UserRegistry.get_all_names, create_registry, List.map_map, hname, List.map_id']
  · rw [create_registry, List.map_map, hname, List.map_id', List.getElem?_eq_getElem h]
    rfl
  · rw [create_registry, List.map_map, hid, List.getElem?_map, List.getElem?_eq_getElem h]
    rfl

/-- Witness for C9 at the concrete input `[" Al "]`. -/
theorem claim_C9_witness :
    0 < ([" Al ".data] : List PyStr).length ∧
    ((create_registry [" Al ".data]).get_all_names = normalize_names [" Al ".data] ∧
      ((create_registry [" Al ".data]).users.map User.name)[0]? =
        some (([" Al ".data] : List PyStr).get ⟨0, by decide⟩) ∧
      ((create_registry [" Al ".data]).users.map User.user_id)[0]? =
        some (pyLower (([" Al ".data] : List PyStr).get ⟨0, by decide⟩))) :=
  ⟨by decide, claim_C9_registry [" Al ".data] 0 (by decide)⟩
